import Mathlib

/-!
Verification development for the PointAndSeg canopy-segmentation pipeline.

The pipeline in `PointAndSeg.py` chains raster (grid) operations: clip,
optional 3x3 mean smoothing, optional m-to-ft conversion, minimum-height
masking, 5x5 focal-maximum tree-top detection, reclassification of tree-top
heights to tree ids, Euclidean allocation, surface inversion, D8 flow
routing, watershed segmentation, and a final validator that keeps a cell
only when the watershed label agrees with the allocation label and two
geometric rules hold.

Grids are embedded as dimensions, a cell size and a total cell-value
function into `Option ℚ` (`none` = nodata).  Heights and distances are
rationals; the source's float constants 3.281, 0.6 and 0.3 are embedded as
exact rationals.  Raster operators whose implementation lives in the
external `arcpy` library are modelled from the spec, as marked on each
definition; the composition of stages and every arithmetic formula is taken
from the source.
-/

/-- A raster grid: width, height (cell counts), cell size in ground units,
and a per-cell value where `none` is the nodata sentinel. -/
structure Grid where
  w : Nat
  h : Nat
  cellsize : ℚ
  data : Nat → Nat → Option ℚ

/-- Cell access with bounds checking, for window/neighbor reads: out-of-grid
cells read as nodata. -/
def Grid.get? (g : Grid) (r c : Int) : Option ℚ :=
  if 0 ≤ r ∧ r < (g.h : Int) ∧ 0 ≤ c ∧ c < (g.w : Int) then
    g.data r.toNat c.toNat
  else none

/-- Pointwise map over valid cells (nodata stays nodata), as raster map
algebra does for `raster * constant` and similar expressions. -/
def Grid.mapv (f : ℚ → ℚ) (g : Grid) : Grid :=
  { g with data := fun i j => (g.data i j).map f }

/-- Pointwise combination of two grids; nodata in either operand propagates,
as raster map algebra does for binary operators. -/
def Grid.map2 (f : ℚ → ℚ → ℚ) (a b : Grid) : Grid :=
  { a with data := fun i j => (a.data i j).bind fun x => (b.data i j).map fun y => f x y }

/-- Focal statistic selector used by `arcpy.sa.FocalStatistics` calls in the
source: the pipeline uses Mean (smoothing) and Maximum (tree-top search). -/
inductive FocalStat where
  | mean
  | max
deriving DecidableEq

/-- Valid values inside the `wr x wc` rectangular window centered on cell
`(i, j)`; out-of-bounds and nodata window cells are skipped
(`ignore_nodata = "DATA"` in the source). -/
def focalValues (g : Grid) (wr wc : Nat) (i j : Nat) : List ℚ :=
  (List.range wr).flatMap fun di =>
    (List.range wc).filterMap fun dj =>
      g.get? ((i : Int) + (di : Int) - ((wr / 2 : Nat) : Int))
             ((j : Int) + (dj : Int) - ((wc / 2 : Nat) : Int))

/-- Maximum of a value list, `none` on the empty list. -/
def listMax : List ℚ → Option ℚ
  | [] => none
  | x :: xs => some (xs.foldl (fun a b => if a ≤ b then b else a) x)

/-- Mean of a value list, `none` on the empty list. -/
def listMean : List ℚ → Option ℚ
  | [] => none
  | x :: xs => some ((x :: xs).sum / ((x :: xs).length : ℚ))

/-- Modelled from the spec: `arcpy.sa.FocalStatistics` (FocalFilter, not in
src).  Windowed statistic over a grid: each output cell aggregates the valid
values in the window centered on it; if no window cell is valid the output
is nodata.  Output dimensions and cell size equal the input's. -/
def Grid.focal (g : Grid) (wr wc : Nat) (s : FocalStat) : Grid :=
  { g with data := fun i j =>
      match s with
      | .mean => listMean (focalValues g wr wc i j)
      | .max => listMax (focalValues g wr wc i j) }

/-- Modelled from the spec: `arcpy.sa.SetNull(cond, fr, "VALUE < p")` (not in
src).  Nodata where the conditional raster is below `p`, otherwise the
false-raster value; nodata in the conditional raster propagates. -/
def setNullLt (cond fr : Grid) (p : ℚ) : Grid :=
  { cond with data := fun i j =>
      (cond.data i j).bind fun c => if c < p then none else fr.data i j }

/-- Modelled from the spec: `arcpy.sa.SetNull(cond, fr, "Value = 0")` (not in
src).  Nodata where the conditional raster is zero, otherwise the
false-raster value. -/
def setNullEq0 (cond fr : Grid) : Grid :=
  { cond with data := fun i j =>
      (cond.data i j).bind fun c => if c = 0 then none else fr.data i j }

/-- Modelled from the spec: `arcpy.sa.EqualTo` (not in src).  1 where the two
grids are equal, 0 where they differ, nodata where either is nodata. -/
def equalTo (a b : Grid) : Grid := Grid.map2 (fun x y => if x = y then 1 else 0) a b

/-- Greater-than map-algebra comparison `a > b`: 1/0 grid, nodata
propagating, as in the source's raster-calculator expressions. -/
def gtG (a b : Grid) : Grid := Grid.map2 (fun x y => if y < x then 1 else 0) a b

/-- Map-algebra sum, nodata propagating. -/
def addG : Grid → Grid → Grid := Grid.map2 (· + ·)

/-- Map-algebra difference, nodata propagating. -/
def subG : Grid → Grid → Grid := Grid.map2 (· - ·)

/-- Unit-conversion factor 3.281 (m to ft) from the source, exactly. -/
def convFactor : ℚ := 3281 / 1000

/-- Rule A coefficient 0.6 from the source line building `DistGT60Hmax`. -/
def ruleACoeff : ℚ := 6 / 10

/-- Rule B coefficient 0.3 from the source line building `Htmx30GTCHM`. -/
def ruleBCoeff : ℚ := 3 / 10

/-- Inversion constant 1000 from the source line `CHM_Inv = abs(1000 - CHM_Ft)`. -/
def inversionConstant : ℚ := 1000

/-- Maximum Euclidean allocation distance 40 from the source `EucAllocation` call. -/
def allocationRadius : ℚ := 40

/-- The source enables its optional steps by `parameter.lower() == 'true'`. -/
def paramIsTrue (s : String) : Bool := s.toLower == "true"

/-- Smoothing stage: 3x3 focal mean when the smoothing switch is the string
`true` (case-insensitively), otherwise the grid passes through unchanged. -/
def CHM_Sm (p2 : String) (g : Grid) : Grid :=
  if paramIsTrue p2 then g.focal 3 3 .mean else g

/-- Unit-conversion stage: multiply by 3.281 when the conversion switch is
the string `true` (case-insensitively), otherwise pass through. -/
def CHM_Ft (p2 p3 : String) (g : Grid) : Grid :=
  if paramIsTrue p3 then (CHM_Sm p2 g).mapv (· * convFactor) else CHM_Sm p2 g

/-- Minimum-height mask: nodata below the threshold, as in the source's
`SetNull(CHM_Ft, CHM_Ft, "VALUE < " + parameter4)`. -/
def CHM_MinHt (p2 p3 : String) (mh : ℚ) (g : Grid) : Grid :=
  setNullLt (CHM_Ft p2 p3 g) (CHM_Ft p2 p3 g) mh

/-- 5x5 focal maximum of the masked height grid. -/
def CHM_LocalMax (hm : Grid) : Grid := hm.focal 5 5 .max

/-- 1 where the 5x5 focal maximum equals the masked height, 0 elsewhere. -/
def treeLoc (hm : Grid) : Grid := equalTo (CHM_LocalMax hm) hm

/-- Tree-top heights: masked height where `treeLoc` is nonzero, nodata
elsewhere — the marker cells carry their height value. -/
def treeLocHt (hm : Grid) : Grid := setNullEq0 (treeLoc hm) hm

/-- Row-major list of the valid cells of a grid with their values; for the
tree-top grid these are the markers, in the scan order `RasterToPoint` uses
to assign `pointid` (renamed `TreeId`). -/
def markerList (t : Grid) : List (Nat × Nat × ℚ) :=
  (List.range t.h).flatMap fun i =>
    (List.range t.w).filterMap fun j => (t.data i j).map fun v => (i, j, v)

/-- Tag a marker list with consecutive ids starting at `k`, keeping each
marker's height: the (TreeId, Height) rows of the `treeTop` point table. -/
def idTag : Nat → List (Nat × Nat × ℚ) → List (Nat × ℚ)
  | _, [] => []
  | k, m :: ms => (k, m.2.2) :: idTag (k + 1) ms

/-- The (TreeId, Height) table built from a tree-top grid, ids 1-based in
row-major order. -/
def markerTable (t : Grid) : List (Nat × ℚ) := idTag 1 (markerList t)

/-- Modelled from the spec: `arcpy.sa.ReclassByTable` remap semantics (not in
src).  A height value maps to the TreeId of the first table row whose Height
equals it; values not in the table stay unmapped (here: nodata). -/
def treeIdOfHeight (tbl : List (Nat × ℚ)) (v : ℚ) : Option ℚ :=
  (tbl.find? fun r => decide (r.2 = v)).map fun r => (r.1 : ℚ)

/-- Tree-id raster: each tree-top cell's height reclassified to a TreeId via
the (TreeId, Height) table, as the source's `ReclassByTable` call does. -/
def treeTopReclass (t : Grid) : Grid :=
  { t with data := fun i j => (t.data i j).bind (treeIdOfHeight (markerTable t)) }

/-- Height of the marker with a given id, via the (TreeId, Height) table:
the `JoinField`/`Lookup` pair in the source resolves an allocation id to its
marker's height this way. -/
def heightOfId (tbl : List (Nat × ℚ)) (v : ℚ) : Option ℚ :=
  (tbl.find? fun r => decide ((r.1 : ℚ) = v)).map fun r => r.2

/-- Squared Euclidean ground distance between the centers of cells `(i, j)`
and `(r, c)` on a grid with cell size `cs`. -/
def dsq (cs : ℚ) (i j r c : Nat) : ℚ :=
  ((i : ℚ) - (r : ℚ)) ^ 2 * cs ^ 2 + ((j : ℚ) - (c : ℚ)) ^ 2 * cs ^ 2

/-- Keep the candidate with the smaller squared distance; ties go to the
lower marker id; `none` is the empty accumulator. -/
def pickNearer (acc : Option (ℚ × ℚ)) (p : ℚ × ℚ) : Option (ℚ × ℚ) :=
  match acc with
  | none => some p
  | some q => if p.2 < q.2 ∨ (p.2 = q.2 ∧ p.1 < q.1) then some p else some q

/-- Nearest (id, squared-distance) candidate of a list, `none` when empty. -/
def nearest (l : List (ℚ × ℚ)) : Option (ℚ × ℚ) := l.foldl pickNearer none

/-- The (id, squared-distance) pairs of all source-grid markers within the
allocation radius of cell `(i, j)`. -/
def candidates (src : Grid) (maxD : ℚ) (i j : Nat) : List (ℚ × ℚ) :=
  ((markerList src).map fun m => (m.2.2, dsq src.cellsize i j m.1 m.2.1)).filter
    fun p => decide (p.2 ≤ maxD ^ 2)

/-- Modelled from the spec: `arcpy.sa.EucAllocation` label output (not in
src).  Each cell takes the id of the nearest source cell within the maximum
distance (ties to the lowest id), nodata when none is in range.  Distances
are compared through their exact squares, which preserves the ordering and
the nodata pattern of the true Euclidean distances. -/
def treeTopAlloc (src : Grid) (maxD : ℚ) : Grid :=
  { src with data := fun i j => (nearest (candidates src maxD i j)).map (·.1) }

/-- Modelled from the spec: `arcpy.sa.EucAllocation` distance output (not in
src).  Cells hold the squared Euclidean ground distance to the allocated
source cell (exact in ℚ; the true distance is its square root), with the
same nodata pattern as the true distance raster. -/
def treeTopDist (src : Grid) (maxD : ℚ) : Grid :=
  { src with data := fun i j => (nearest (candidates src maxD i j)).map (·.2) }

/-- Inverted surface from the source line `CHM_Inv = abs(1000 - CHM_Ft)`. -/
def CHM_Inv (hft : Grid) : Grid := hft.mapv fun v => abs (inversionConstant - v)

/-- The eight D8 directions in the fixed priority order E, SE, S, SW, W, NW,
N, NE, each with its arcpy direction code and (row, col) offset. -/
def dirList : List (ℚ × Int × Int) :=
  [(1, 0, 1), (2, 1, 1), (4, 1, 0), (8, 1, -1), (16, 0, -1), (32, -1, -1), (64, -1, 0), (128, -1, 1)]

/-- Modelled from the spec: `arcpy.sa.FlowDirection` D8 step (not in src).
Among the valid neighbors strictly lower than the cell, pick the one with
the largest drop; ties keep the earlier (higher-priority) direction; `none`
when the cell is nodata or no neighbor is strictly lower (a sink). -/
def flowStep (g : Grid) (i j : Nat) : Option (ℚ × Int × Int) :=
  match g.data i j with
  | none => none
  | some v =>
    (dirList.foldl (fun acc d =>
      match g.get? ((i : Int) + d.2.1) ((j : Int) + d.2.2) with
      | none => acc
      | some nv =>
        if nv < v then
          match acc with
          | none => some (d, v - nv)
          | some a => if a.2 < v - nv then some (d, v - nv) else acc
        else acc) none).map (·.1)

/-- D8 flow-direction raster carrying arcpy direction codes; sinks and
nodata cells are nodata. -/
def CHM_Flow (g : Grid) : Grid :=
  { g with data := fun i j => (flowStep g i j).map (·.1) }

/-- Modelled from the spec: `arcpy.sa.Watershed` resolution (not in src).
Follow the flow chain downstream from a cell; the cell resolves to the id of
the first pour-point cell on its path (the path starts at the cell itself),
or nodata when the chain ends without meeting a pour point.  Fuel bounds the
walk so the function is total even on cyclic plateaus. -/
def watershedResolve (g pour : Grid) : Nat → Nat → Nat → Option ℚ
  | 0, _, _ => none
  | fuel + 1, i, j =>
    match pour.data i j with
    | some k => some k
    | none =>
      match flowStep g i j with
      | none => none
      | some d =>
        let r := (i : Int) + d.2.1
        let c := (j : Int) + d.2.2
        if 0 ≤ r ∧ 0 ≤ c then watershedResolve g pour fuel r.toNat c.toNat else none

/-- Watershed label grid over the inverted surface with the tree-id raster
as pour points, as in the source's `Watershed` call. -/
def CHM_watershed (g pour : Grid) : Grid :=
  { pour with data := fun i j => watershedResolve g pour (g.w * g.h + 1) i j }

/-- Agreement raster from the source line
`EqualTo(CHM_watershed, treeTopAlloc)`. -/
def CHM_WsEqAlloc (ws al : Grid) : Grid := equalTo ws al

/-- Rule A raster from the source line
`(treeTopDist * float(Resolution) * 3.281 * 0.6) > CHM_Ft`:
1 where the scaled allocation distance exceeds the height. -/
def DistGT60Hmax (dist hft : Grid) (res : ℚ) : Grid :=
  gtG (dist.mapv fun d => d * res * convFactor * ruleACoeff) hft

/-- Allocation owner height raster: each allocation id replaced by its
marker's height, as the source's `JoinField` + `Lookup` pair does. -/
def treeTopAllocHt (tbl : List (Nat × ℚ)) (al : Grid) : Grid :=
  { al with data := fun i j => (al.data i j).bind (heightOfId tbl) }

/-- Rule B raster from the source line `(treeTopAllocHt * 0.3) > CHM_Ft`:
1 where 30 percent of the owner's apex height exceeds the cell height. -/
def Htmx30GTCHM (tbl : List (Nat × ℚ)) (al hft : Grid) : Grid :=
  gtG ((treeTopAllocHt tbl al).mapv (· * ruleBCoeff)) hft

/-- Combined rejection raster from the source line
`SegNull = DistGT60Hmax + Htmx30GTCHM`. -/
def SegNull (tbl : List (Nat × ℚ)) (al dist hft : Grid) (res : ℚ) : Grid :=
  addG (DistGT60Hmax dist hft res) (Htmx30GTCHM tbl al hft)

/-- Final segmentation raster from the source line
`SetNull(CHM_WsEqAlloc - SegNull, treeTopAlloc, "VALUE < 1")`: a cell keeps
its allocation id iff the agreement raster is 1 and both rejection rasters
are 0; everything else, including any nodata constituent, becomes nodata. -/
def CanopySegRas (ws al dist hft : Grid) (tbl : List (Nat × ℚ)) (res : ℚ) : Grid :=
  setNullLt (subG (CHM_WsEqAlloc ws al) (SegNull tbl al dist hft res)) al 1

/-- The grids the pipeline run over a clipped input `g` produces, chained
exactly as `ScriptTool` chains them, in source order; the cell size the
Rule A expression reads via `GetRasterProperties` is `g.cellsize`, which
every stage preserves. -/
def pipelineGrids (p2 p3 : String) (mh : ℚ) (g : Grid) : List Grid :=
  [CHM_Sm p2 g,
   CHM_Ft p2 p3 g,
   CHM_MinHt p2 p3 mh g,
   CHM_LocalMax (CHM_MinHt p2 p3 mh g),
   treeLoc (CHM_MinHt p2 p3 mh g),
   treeLocHt (CHM_MinHt p2 p3 mh g),
   treeTopReclass (treeLocHt (CHM_MinHt p2 p3 mh g)),
   treeTopAlloc (treeTopReclass (treeLocHt (CHM_MinHt p2 p3 mh g))) allocationRadius,
   treeTopDist (treeTopReclass (treeLocHt (CHM_MinHt p2 p3 mh g))) allocationRadius,
   CHM_Inv (CHM_Ft p2 p3 g),
   CHM_Flow (CHM_Inv (CHM_Ft p2 p3 g)),
   CHM_watershed (CHM_Inv (CHM_Ft p2 p3 g))
     (treeTopReclass (treeLocHt (CHM_MinHt p2 p3 mh g))),
   CHM_WsEqAlloc
     (CHM_watershed (CHM_Inv (CHM_Ft p2 p3 g))
       (treeTopReclass (treeLocHt (CHM_MinHt p2 p3 mh g))))
     (treeTopAlloc (treeTopReclass (treeLocHt (CHM_MinHt p2 p3 mh g))) allocationRadius),
   DistGT60Hmax
     (treeTopDist (treeTopReclass (treeLocHt (CHM_MinHt p2 p3 mh g))) allocationRadius)
     (CHM_Ft p2 p3 g) g.cellsize,
   Htmx30GTCHM (markerTable (treeLocHt (CHM_MinHt p2 p3 mh g)))
     (treeTopAlloc (treeTopReclass (treeLocHt (CHM_MinHt p2 p3 mh g))) allocationRadius)
     (CHM_Ft p2 p3 g),
   SegNull (markerTable (treeLocHt (CHM_MinHt p2 p3 mh g)))
     (treeTopAlloc (treeTopReclass (treeLocHt (CHM_MinHt p2 p3 mh g))) allocationRadius)
     (treeTopDist (treeTopReclass (treeLocHt (CHM_MinHt p2 p3 mh g))) allocationRadius)
     (CHM_Ft p2 p3 g) g.cellsize,
   CanopySegRas
     (CHM_watershed (CHM_Inv (CHM_Ft p2 p3 g))
       (treeTopReclass (treeLocHt (CHM_MinHt p2 p3 mh g))))
     (treeTopAlloc (treeTopReclass (treeLocHt (CHM_MinHt p2 p3 mh g))) allocationRadius)
     (treeTopDist (treeTopReclass (treeLocHt (CHM_MinHt p2 p3 mh g))) allocationRadius)
     (CHM_Ft p2 p3 g) (markerTable (treeLocHt (CHM_MinHt p2 p3 mh g))) g.cellsize]

/-- Two grids share width, height and cell size. -/
def sameDims (a b : Grid) : Prop := a.w = b.w ∧ a.h = b.h ∧ a.cellsize = b.cellsize

/-- A 1x1 grid with cell size 1 holding a single value, for concrete runs. -/
def oneCell (v : ℚ) : Grid := ⟨1, 1, 1, fun _ _ => some v⟩

/-- An 11x1 strip holding two separated tree tops of equal height 10 at
columns 0 and 10 (all other cells nodata): both cells are 5x5 local maxima,
so both are markers, and both share height 10. -/
def g3c : Grid :=
  ⟨11, 1, 1, fun i j => if i = 0 ∧ j = 0 then some 10
    else if i = 0 ∧ j = 10 then some 10 else none⟩

/-- An 11x1 strip holding two separated tree tops of distinct heights 10
and 9 at columns 0 and 10 (all other cells nodata). -/
def g3w : Grid :=
  ⟨11, 1, 1, fun i j => if i = 0 ∧ j = 0 then some 10
    else if i = 0 ∧ j = 10 then some 9 else none⟩

/-- A 2x1 grid with a single source marker of id 7 at cell (0,0). -/
def srcW : Grid := ⟨2, 1, 1, fun i j => if i = 0 ∧ j = 0 then some 7 else none⟩

/-- Pointwise characterization of the final segmentation raster: a cell
holds value `v` iff the watershed and allocation labels are both `v`, the
allocation distance, height and owner-height are all valid, and neither
rejection rule fires. -/
theorem canopySeg_char (ws al dist hft : Grid) (tbl : List (Nat × ℚ)) (res : ℚ)
    (i j : Nat) (v : ℚ) :
    (CanopySegRas ws al dist hft tbl res).data i j = some v ↔
      (ws.data i j = some v ∧ al.data i j = some v ∧
        ∃ d x a, dist.data i j = some d ∧ hft.data i j = some x ∧
          (treeTopAllocHt tbl al).data i j = some a ∧
          d * res * convFactor * ruleACoeff ≤ x ∧ a * ruleBCoeff ≤ x) := by
  simp only [CanopySegRas, setNullLt, subG, CHM_WsEqAlloc, equalTo, SegNull, addG,
    DistGT60Hmax, gtG, Htmx30GTCHM, treeTopAllocHt, Grid.map2, Grid.mapv]
  rcases hws : ws.data i j with _ | x1 <;> rcases hal : al.data i j with _ | y1 <;>
    simp [hws, hal]
  rcases hd : dist.data i j with _ | d <;> rcases hx : hft.data i j with _ | x <;>
    rcases hh : heightOfId tbl y1 with _ | a <;> simp [hd, hx, hh]
  by_cases hP : x1 = y1 <;>
    by_cases hQ : x < d * res * convFactor * ruleACoeff <;>
      by_cases hR : x < a * ruleBCoeff <;>
        simp [hP, hQ, hR, not_lt.mp]
  all_goals norm_num
  all_goals intros
  all_goals first | assumption | simp_all

/-- C1 (amended): a cell survives into the final Segmentation grid iff the
watershed label equals the allocation label (both valid and equal to the
stored id), the allocation distance, cell height and owner height are all
valid, Rule A holds in the form the source computes it —
`AllocationDistance * cellSize * 3.281 * 0.6 <= H` — and Rule B holds —
`height(owning marker) * 0.3 <= H`; every other cell is nodata. -/
theorem segmentationValidator_survival_iff (ws al dist hft : Grid)
    (tbl : List (Nat × ℚ)) (res : ℚ) (i j : Nat) (v : ℚ) :
    (CanopySegRas ws al dist hft tbl res).data i j = some v ↔
      (ws.data i j = some v ∧ al.data i j = some v ∧
        ∃ d x a, dist.data i j = some d ∧ hft.data i j = some x ∧
          (treeTopAllocHt tbl al).data i j = some a ∧
          d * res * convFactor * ruleACoeff ≤ x ∧ a * ruleBCoeff ≤ x) :=
  canopySeg_char ws al dist hft tbl res i j v

/-- C1 (counterexample): at this one-cell input the three conditions of the
claim hold — labels agree, `dist * cellSize * 0.6 = 0.6 <= 1 = H`, and
`0.3 * ownerHeight = 0.3 <= 1 = H` — yet the final segmentation raster is
nodata, because the source's Rule A also multiplies by the 3.281 conversion
factor (`1 * 1 * 3.281 * 0.6 > 1`). -/
theorem segmentationValidator_claim_counterexample :
    (oneCell 1).data 0 0 = some 1 ∧
    (1 : ℚ) * 1 * ruleACoeff ≤ 1 ∧
    (treeTopAllocHt [(1, (1 : ℚ))] (oneCell 1)).data 0 0 = some 1 ∧
    ruleBCoeff * 1 ≤ (1 : ℚ) ∧
    (CanopySegRas (oneCell 1) (oneCell 1) (oneCell 1) (oneCell 1) [(1, 1)] 1).data 0 0 = none := by
  with_unfolding_all decide

/-- C2 (amended): for every cell kept in the final Segmentation grid,
`AllocationDistance * cellSize * 3.281 * 0.6 <= H` holds: the source's
Rule A comparison carries the extra unit-conversion factor 3.281 beside the
0.6 coefficient. -/
theorem ruleA_rejects_with_conversion (ws al dist hft : Grid) (tbl : List (Nat × ℚ))
    (res : ℚ) (i j : Nat) (v : ℚ)
    (hkeep : (CanopySegRas ws al dist hft tbl res).data i j = some v) :
    ∃ d x, dist.data i j = some d ∧ hft.data i j = some x ∧
      d * res * convFactor * ruleACoeff ≤ x := by
  obtain ⟨-, -, d, x, a, hd, hx, -, hA, -⟩ :=
    (canopySeg_char ws al dist hft tbl res i j v).mp hkeep
  exact ⟨d, x, hd, hx, hA⟩

/-- C2 (witness): a concrete kept cell instantiating the amended Rule A
theorem. -/
theorem ruleA_rejects_with_conversion_witness :
    ∃ d x, (oneCell 0).data 0 0 = some d ∧ (oneCell 1).data 0 0 = some x ∧
      d * 1 * convFactor * ruleACoeff ≤ x :=
  ruleA_rejects_with_conversion (oneCell 1) (oneCell 1) (oneCell 0) (oneCell 1) [(1, 1)] 1 0 0 1
    (by with_unfolding_all decide)

/-- C2 (counterexample): a cell whose claim-form product satisfies
`dist * cellSize * 0.6 = 1.2 <= 2 = H`, with agreeing labels and Rule B
satisfied, is nonetheless rejected: Rule A as coded compares
`2 * 1 * 3.281 * 0.6 = 3.9372 > 2`, so a factor beyond `cellSize * 0.6`
does enter the comparison. -/
theorem ruleA_claim_counterexample :
    (2 : ℚ) * 1 * ruleACoeff ≤ 2 ∧
    (treeTopAllocHt [(1, (2 : ℚ))] (oneCell 1)).data 0 0 = some 2 ∧
    ruleBCoeff * 2 ≤ (2 : ℚ) ∧
    (CanopySegRas (oneCell 1) (oneCell 1) (oneCell 2) (oneCell 2) [(1, 2)] 1).data 0 0 = none := by
  with_unfolding_all decide

/-- C9: every surviving cell stores the allocation label, which equals the
watershed label, and the apex height Rule B compared against is exactly the
height the id-to-height table gives for that same allocation-owning
marker. -/
theorem survivor_labels_and_owner_height (ws al dist hft : Grid) (tbl : List (Nat × ℚ))
    (res : ℚ) (i j : Nat) (v : ℚ)
    (hkeep : (CanopySegRas ws al dist hft tbl res).data i j = some v) :
    al.data i j = some v ∧ ws.data i j = some v ∧
      ∃ a, (treeTopAllocHt tbl al).data i j = some a ∧ heightOfId tbl v = some a := by
  obtain ⟨hws, hal, d, x, a, hd, hx, ha, -, -⟩ :=
    (canopySeg_char ws al dist hft tbl res i j v).mp hkeep
  refine ⟨hal, hws, a, ha, ?_⟩
  simpa [treeTopAllocHt, hal] using ha

/-- C9 (witness): a concrete kept cell instantiating the label-agreement
theorem. -/
theorem survivor_labels_and_owner_height_witness :
    (oneCell 2).data 0 0 = some 2 ∧ (oneCell 2).data 0 0 = some 2 ∧
      ∃ a, (treeTopAllocHt [(2, (1 : ℚ))] (oneCell 2)).data 0 0 = some a ∧
        heightOfId [(2, (1 : ℚ))] 2 = some a :=
  survivor_labels_and_owner_height (oneCell 2) (oneCell 2) (oneCell 0) (oneCell 1) [(2, 1)] 1 0 0 2
    (by with_unfolding_all decide)

/-- The center cell's value lies in its own 5x5 focal window. -/
theorem center_mem_focalValues (g : Grid) (i j : Nat) (hi : i < g.h) (hj : j < g.w)
    (v : ℚ) (hv : g.data i j = some v) : v ∈ focalValues g 5 5 i j := by
  have hget : g.get? ((i : Int) + ((2 : Nat) : Int) - (((5 / 2 : Nat)) : Int))
      ((j : Int) + ((2 : Nat) : Int) - (((5 / 2 : Nat)) : Int)) = some v := by
    have e1 : ((i : Int) + ((2 : Nat) : Int) - (((5 / 2 : Nat)) : Int)) = (i : Int) := by
      norm_num
    have e2 : ((j : Int) + ((2 : Nat) : Int) - (((5 / 2 : Nat)) : Int)) = (j : Int) := by
      norm_num
    rw [e1, e2]
    unfold Grid.get?
    rw [if_pos ⟨Int.natCast_nonneg i, by exact_mod_cast hi, Int.natCast_nonneg j,
      by exact_mod_cast hj⟩]
    simpa using hv
  exact List.mem_flatMap.mpr ⟨2, by decide, List.mem_filterMap.mpr ⟨2, by decide, hget⟩⟩

/-- A cell of the masked height grid is a tree-top (its value survives into
`treeLocHt`) iff its height is valid and the 5x5 focal maximum equals it. -/
theorem treeLocHt_isSome_iff (hm : Grid) (i j : Nat) (hi : i < hm.h) (hj : j < hm.w) :
    ((treeLocHt hm).data i j).isSome ↔
      ((hm.data i j).isSome ∧ (CHM_LocalMax hm).data i j = hm.data i j) := by
  rcases hv : hm.data i j with _ | x
  · simp [treeLocHt, setNullEq0, treeLoc, equalTo, Grid.map2, hv]
  · have hmem := center_mem_focalValues hm i j hi hj x hv
    have hlm : (CHM_LocalMax hm).data i j = listMax (focalValues hm 5 5 i j) := rfl
    rcases hl : focalValues hm 5 5 i j with _ | ⟨y, ys⟩
    · rw [hl] at hmem; cases hmem
    · rw [hl] at hlm
      simp only [listMax] at hlm
      by_cases hxm : ys.foldl (fun a b => if a ≤ b then b else a) y = x
      · simp [treeLocHt, setNullEq0, treeLoc, equalTo, Grid.map2, hv, hlm, hxm]
      · simp [treeLocHt, setNullEq0, treeLoc, equalTo, Grid.map2, hv, hlm, hxm]

/-- Keys produced by `idTag` starting at `n` are at least `n`. -/
theorem idTag_key_ge (l : List (Nat × Nat × ℚ)) :
    ∀ (n k : Nat) (x : ℚ), (k, x) ∈ idTag n l → n ≤ k := by
  induction l with
  | nil => intro n k x h; simp [idTag] at h
  | cons m ms ih =>
    intro n k x h
    simp only [idTag, List.mem_cons, Prod.mk.injEq] at h
    rcases h with ⟨rfl, -⟩ | h
    · exact Nat.le_refl _
    · exact Nat.le_of_succ_le (ih (n + 1) k x h)

/-- Each key appears at most once in an `idTag` table: equal keys carry
equal heights. -/
theorem idTag_key_unique (l : List (Nat × Nat × ℚ)) :
    ∀ (n k : Nat) (x y : ℚ), (k, x) ∈ idTag n l → (k, y) ∈ idTag n l → x = y := by
  induction l with
  | nil => intro n k x y h; simp [idTag] at h
  | cons m ms ih =>
    intro n k x y hx hy
    simp only [idTag, List.mem_cons, Prod.mk.injEq] at hx hy
    rcases hx with ⟨hk1, hx1⟩ | hx
    · rcases hy with ⟨hk2, hy1⟩ | hy
      · exact hx1.trans hy1.symm
      · exact absurd (idTag_key_ge ms (n + 1) k y hy) (by omega)
    · rcases hy with ⟨hk2, hy1⟩ | hy
      · exact absurd (idTag_key_ge ms (n + 1) k x hx) (by omega)
      · exact ih (n + 1) k x y hx hy
  
/-- Every marker of the list receives some id row in the table. -/
theorem mem_idTag_of_mem (l : List (Nat × Nat × ℚ)) :
    ∀ (n : Nat) (m : Nat × Nat × ℚ), m ∈ l → ∃ k, (k, m.2.2) ∈ idTag n l := by
  induction l with
  | nil => intro n m h; simp at h
  | cons a as ih =>
    intro n m hm
    rcases List.mem_cons.mp hm with rfl | hm
    · exact ⟨n, List.mem_cons_self _ _⟩
    · obtain ⟨k, hk⟩ := ih (n + 1) m hm
      exact ⟨k, List.mem_cons_of_mem _ hk⟩

/-- A valid in-bounds cell appears in the row-major marker list. -/
theorem mem_markerList (t : Grid) (i j : Nat) (v : ℚ) (hi : i < t.h) (hj : j < t.w)
    (hv : t.data i j = some v) : (i, j, v) ∈ markerList t := by
  unfold markerList
  rw [List.mem_flatMap]
  refine ⟨i, List.mem_range.mpr hi, ?_⟩
  rw [List.mem_filterMap]
  exact ⟨j, List.mem_range.mpr hj, by rw [hv]; rfl⟩

/-- When some table row carries height `v`, the height-to-id lookup
succeeds. -/
theorem treeIdOfHeight_isSome (tbl : List (Nat × ℚ)) (v : ℚ)
    (h : ∃ r ∈ tbl, r.2 = v) : ∃ k, treeIdOfHeight tbl v = some k := by
  obtain ⟨r, hr, hrv⟩ := h
  rcases hfind : tbl.find? (fun s => decide (s.2 = v)) with _ | r2
  · exfalso
    have hnone := List.find?_eq_none.mp hfind r hr
    simp [hrv] at hnone
  · exact ⟨(r2.1 : ℚ), by unfold treeIdOfHeight; rw [hfind]; rfl⟩

/-- A successful height-to-id lookup returns the id of a table row whose
height is the looked-up height. -/
theorem treeIdOfHeight_spec (tbl : List (Nat × ℚ)) (v k : ℚ)
    (h : treeIdOfHeight tbl v = some k) : ∃ r ∈ tbl, r.2 = v ∧ (r.1 : ℚ) = k := by
  unfold treeIdOfHeight at h
  rcases hfind : tbl.find? (fun r => decide (r.2 = v)) with _ | r
  · rw [hfind] at h; cases h
  · rw [hfind] at h
    have hp := List.find?_some hfind
    have hpv : r.2 = v := of_decide_eq_true hp
    have hk : (r.1 : ℚ) = k := by simpa using h
    exact ⟨r, List.mem_of_find?_eq_some hfind, hpv, hk⟩

/-- C3 (amended): on the min-height-masked height grid, a cell is a marker
iff its height is valid there and the 5x5 focal maximum equals it there
(every flat-top tie is its own marker cell); but the downstream marker-id
raster is produced by reclassifying marker heights through a first-match
height-to-TreeId table, so markers are only guaranteed distinct raster ids
when their heights differ; two distinct equal-height markers share one
raster id. -/
theorem maximaDetector_markers (hm : Grid) (i j i2 j2 : Nat) (a b : ℚ)
    (hi : i < hm.h) (hj : j < hm.w) (hi2 : i2 < hm.h) (hj2 : j2 < hm.w) :
    (((treeLocHt hm).data i j).isSome ↔
      ((hm.data i j).isSome ∧ (CHM_LocalMax hm).data i j = hm.data i j))
    ∧ ((treeLocHt hm).data i j = some a → (treeLocHt hm).data i2 j2 = some b → a ≠ b →
        ∃ ka kb, (treeTopReclass (treeLocHt hm)).data i j = some ka ∧
          (treeTopReclass (treeLocHt hm)).data i2 j2 = some kb ∧ ka ≠ kb) := by
  refine ⟨treeLocHt_isSome_iff hm i j hi hj, ?_⟩
  intro ha hb hab
  have hta : (i, j, a) ∈ markerList (treeLocHt hm) :=
    mem_markerList (treeLocHt hm) i j a hi hj ha
  have htb : (i2, j2, b) ∈ markerList (treeLocHt hm) :=
    mem_markerList (treeLocHt hm) i2 j2 b hi2 hj2 hb
  obtain ⟨ka0, hka0⟩ := mem_idTag_of_mem (markerList (treeLocHt hm)) 1 _ hta
  obtain ⟨kb0, hkb0⟩ := mem_idTag_of_mem (markerList (treeLocHt hm)) 1 _ htb
  obtain ⟨ka, hka⟩ :=
    treeIdOfHeight_isSome (markerTable (treeLocHt hm)) a ⟨(ka0, a), hka0, rfl⟩
  obtain ⟨kb, hkb⟩ :=
    treeIdOfHeight_isSome (markerTable (treeLocHt hm)) b ⟨(kb0, b), hkb0, rfl⟩
  refine ⟨ka, kb, ?_, ?_, ?_⟩
  · simp [treeTopReclass, ha, hka]
  · simp [treeTopReclass, hb, hkb]
  · intro hEq
    obtain ⟨ra, hraMem, hraH, hraId⟩ :=
      treeIdOfHeight_spec (markerTable (treeLocHt hm)) a ka hka
    obtain ⟨rb, hrbMem, hrbH, hrbId⟩ :=
      treeIdOfHeight_spec (markerTable (treeLocHt hm)) b kb hkb
    have hkey : ra.1 = rb.1 := by
      have : (ra.1 : ℚ) = (rb.1 : ℚ) := by rw [hraId, hrbId, hEq]
      exact_mod_cast this
    have : ra.2 = rb.2 := by
      have hma : (ra.1, ra.2) ∈ idTag 1 (markerList (treeLocHt hm)) := hraMem
      have hmb : (ra.1, rb.2) ∈ idTag 1 (markerList (treeLocHt hm)) := by
        rw [hkey]; exact hrbMem
      exact idTag_key_unique (markerList (treeLocHt hm)) 1 ra.1 ra.2 rb.2 hma hmb
    exact hab (hraH ▸ hrbH ▸ this)

/-- C3 (counterexample): on `g3c`, cells (0,0) and (0,10) are two distinct
markers with equal heights, yet the marker-id raster assigns both the same
id 1 — the height-keyed reclassification collapses equal-height markers,
contradicting the claim that distinct markers always carry distinct ids. -/
theorem maximaDetector_equal_height_counterexample :
    ((treeLocHt g3c).data 0 0).isSome ∧ ((treeLocHt g3c).data 0 10).isSome ∧
    (treeTopReclass (treeLocHt g3c)).data 0 0 = some 1 ∧
    (treeTopReclass (treeLocHt g3c)).data 0 10 = some 1 := by
  with_unfolding_all decide

/-- C3 (witness): on `g3w` the two markers have distinct heights 10 and 9,
and the amended theorem yields distinct raster ids for them. -/
theorem maximaDetector_markers_witness :
    ∃ ka kb, (treeTopReclass (treeLocHt g3w)).data 0 0 = some ka ∧
      (treeTopReclass (treeLocHt g3w)).data 0 10 = some kb ∧ ka ≠ kb :=
  (maximaDetector_markers g3w 0 0 0 10 10 9 (by decide) (by decide) (by decide)
    (by decide)).2 (by with_unfolding_all decide) (by with_unfolding_all decide)
    (by with_unfolding_all decide)

/-- A fold of `pickNearer` that returns a candidate returns a list element
or the initial accumulator. -/
theorem foldl_pickNearer_mem (l : List (ℚ × ℚ)) :
    ∀ (acc : Option (ℚ × ℚ)) (p : ℚ × ℚ), l.foldl pickNearer acc = some p →
      p ∈ l ∨ acc = some p := by
  induction l with
  | nil => intro acc p h; exact Or.inr h
  | cons x xs ih =>
    intro acc p h
    rcases ih (pickNearer acc x) p h with hmem | hacc
    · exact Or.inl (List.mem_cons_of_mem _ hmem)
    · rcases acc with _ | q
      · simp only [pickNearer] at hacc
        exact Or.inl (by rw [Option.some.inj hacc]; exact List.mem_cons_self _ _)
      · simp only [pickNearer] at hacc
        split at hacc
        · exact Or.inl (by rw [Option.some.inj hacc]; exact List.mem_cons_self _ _)
        · exact Or.inr hacc

/-- A fold of `pickNearer` started from a nonempty accumulator never
returns `none`. -/
theorem foldl_pickNearer_ne_none (l : List (ℚ × ℚ)) :
    ∀ (q : ℚ × ℚ), l.foldl pickNearer (some q) ≠ none := by
  induction l with
  | nil => intro q h; cases h
  | cons x xs ih =>
    intro q
    show xs.foldl pickNearer (pickNearer (some q) x) ≠ none
    simp only [pickNearer]
    split
    · exact ih x
    · exact ih q

/-- The nearest candidate is `none` exactly on the empty candidate list. -/
theorem nearest_eq_none_iff (l : List (ℚ × ℚ)) : nearest l = none ↔ l = [] := by
  constructor
  · intro h
    cases l with
    | nil => rfl
    | cons x xs =>
      exact absurd (show xs.foldl pickNearer (some x) = none from h)
        (foldl_pickNearer_ne_none xs x)
  · intro h; subst h; rfl

/-- The nearest candidate comes from the candidate list. -/
theorem nearest_mem (l : List (ℚ × ℚ)) (p : ℚ × ℚ) (h : nearest l = some p) : p ∈ l := by
  rcases foldl_pickNearer_mem l none p h with hm | hacc
  · exact hm
  · cases hacc

/-- Membership in the allocation candidate list: an (id, squared-distance)
pair of a source marker within the allocation radius. -/
theorem mem_candidates_iff (src : Grid) (maxD : ℚ) (i j : Nat) (p : ℚ × ℚ) :
    p ∈ candidates src maxD i j ↔
      ((∃ m ∈ markerList src, (m.2.2, dsq src.cellsize i j m.1 m.2.1) = p) ∧
        p.2 ≤ maxD ^ 2) := by
  unfold candidates
  rw [List.mem_filter, List.mem_map]
  simp only [decide_eq_true_eq]

/-- C4: the allocation distance grid is valid exactly where the allocation
label grid is; every label is the id of some source marker cell; and both
grids are valid at a cell exactly when some marker lies within the
allocation radius of it. -/
theorem markerAllocator_invariants (src : Grid) (maxD : ℚ) (i j : Nat) :
    (((treeTopDist src maxD).data i j).isSome ↔
      ((treeTopAlloc src maxD).data i j).isSome)
    ∧ (∀ k, (treeTopAlloc src maxD).data i j = some k → ∃ m ∈ markerList src, m.2.2 = k)
    ∧ (((treeTopAlloc src maxD).data i j).isSome ↔
        ∃ m ∈ markerList src, dsq src.cellsize i j m.1 m.2.1 ≤ maxD ^ 2) := by
  refine ⟨?_, ?_, ?_⟩
  · simp [treeTopDist, treeTopAlloc]
  · intro k hk
    simp only [treeTopAlloc] at hk
    rcases hn : nearest (candidates src maxD i j) with _ | p
    · rw [hn] at hk; cases hk
    · rw [hn] at hk
      have hp := nearest_mem _ p hn
      rw [mem_candidates_iff] at hp
      obtain ⟨⟨m, hm, hmp⟩, -⟩ := hp
      refine ⟨m, hm, ?_⟩
      have hpk : p.1 = k := by simpa using hk
      have hm1 : m.2.2 = p.1 := congrArg Prod.fst hmp
      rw [hm1, hpk]
  · constructor
    · intro hs
      rcases hn : nearest (candidates src maxD i j) with _ | p
      · simp [treeTopAlloc, hn] at hs
      · have hp := nearest_mem _ p hn
        rw [mem_candidates_iff] at hp
        obtain ⟨⟨m, hm, hmp⟩, hle⟩ := hp
        refine ⟨m, hm, ?_⟩
        have hm2 : dsq src.cellsize i j m.1 m.2.1 = p.2 := congrArg Prod.snd hmp
        rw [hm2]; exact hle
    · rintro ⟨m, hm, hle⟩
      have hc : (m.2.2, dsq src.cellsize i j m.1 m.2.1) ∈ candidates src maxD i j := by
        rw [mem_candidates_iff]
        exact ⟨⟨m, hm, rfl⟩, hle⟩
      have hne : candidates src maxD i j ≠ [] := by
        intro h0; rw [h0] at hc; cases hc
      rcases hn : nearest (candidates src maxD i j) with _ | p
      · exact absurd ((nearest_eq_none_iff _).mp hn) hne
      · simp [treeTopAlloc, hn]

/-- C4 (witness): on `srcW` the cell (0,1) is allocated to marker id 7,
which the invariants theorem traces back to a source marker. -/
theorem markerAllocator_invariants_witness : ∃ m ∈ markerList srcW, m.2.2 = 7 :=
  (markerAllocator_invariants srcW 40 0 1).2.1 7 (by with_unfolding_all decide)

/-- C5 (amended): the pipeline performs no eager validation of the inversion
constant: the inversion stage is total and computes `|1000 - H|` at every
valid cell, producing stage output even when heights reach or exceed the
constant, and no error is raised anywhere. -/
theorem inversion_no_validation (p2 p3 : String) (g : Grid) (i j : Nat) (v : ℚ)
    (hv : (CHM_Ft p2 p3 g).data i j = some v) :
    (CHM_Inv (CHM_Ft p2 p3 g)).data i j = some (abs (inversionConstant - v)) := by
  simp [CHM_Inv, Grid.mapv, hv]

set_option maxRecDepth 16000 in
/-- C5 (counterexample): a one-cell grid of height 1500, where the inversion
constant 1000 does not exceed the maximum height, still flows through the
inversion stage, which produces the value `|1000 - 1500| = 500` instead of
aborting with an error before any stage runs. -/
theorem inversion_claim_counterexample :
    (CHM_Ft "false" "false" (oneCell 1500)).data 0 0 = some 1500 ∧
    inversionConstant ≤ 1500 ∧
    (CHM_Inv (CHM_Ft "false" "false" (oneCell 1500))).data 0 0 = some 500 := by
  with_unfolding_all decide

set_option maxRecDepth 16000 in
/-- C5 (witness): instantiating the no-validation theorem at height 2000. -/
theorem inversion_no_validation_witness :
    (CHM_Inv (CHM_Ft "false" "false" (oneCell 2000))).data 0 0 =
      some (abs (inversionConstant - 2000)) :=
  inversion_no_validation "false" "false" (oneCell 2000) 0 0 2000
    (by with_unfolding_all decide)

/-- C6: when the inversion constant exceeds every valid converted height in
the grid, the inverted surface handed to the flow router equals
`inversionConstant - H` at every valid cell. -/
theorem inversion_under_max (p2 p3 : String) (g : Grid)
    (hmax : ∀ i j v, i < (CHM_Ft p2 p3 g).h → j < (CHM_Ft p2 p3 g).w →
      (CHM_Ft p2 p3 g).data i j = some v → v < inversionConstant)
    (i j : Nat) (v : ℚ) (hi : i < (CHM_Ft p2 p3 g).h) (hj : j < (CHM_Ft p2 p3 g).w)
    (hv : (CHM_Ft p2 p3 g).data i j = some v) :
    (CHM_Inv (CHM_Ft p2 p3 g)).data i j = some (inversionConstant - v) := by
  have hlt := hmax i j v hi hj hv
  have habs : abs (inversionConstant - v) = inversionConstant - v :=
    abs_of_pos (by linarith)
  simp [CHM_Inv, Grid.mapv, hv, habs]

set_option maxRecDepth 16000 in
/-- C6 (witness): at a one-cell grid of height 500 < 1000 the inverted
surface holds exactly 1000 - 500. -/
theorem inversion_under_max_witness :
    (CHM_Inv (CHM_Ft "false" "false" (oneCell 500))).data 0 0 =
      some (inversionConstant - 500) :=
  inversion_under_max "false" "false" (oneCell 500)
    (by
      intro i j v _ _ hv
      have hb : paramIsTrue "false" = false := by with_unfolding_all decide
      simp [CHM_Ft, CHM_Sm, hb, oneCell] at hv
      rw [← hv]
      norm_num [inversionConstant])
    0 0 500 (by with_unfolding_all decide) (by with_unfolding_all decide)
    (by with_unfolding_all decide)

/-- C7: a pour-point cell resolves to its own id under the watershed
downstream-chain resolution, whatever the flow surface looks like: the
chain starts at the cell itself, so the first pour point it meets is its
own. -/
theorem watershed_pour_point_self (g pour : Grid) (i j : Nat) (k : ℚ)
    (hp : pour.data i j = some k) : (CHM_watershed g pour).data i j = some k := by
  show watershedResolve g pour (g.w * g.h + 1) i j = some k
  simp [watershedResolve, hp]

set_option maxRecDepth 16000 in
set_option maxHeartbeats 1000000 in
/-- C7 (witness): on a one-cell pour grid with id 3, the watershed label at
the pour cell is 3. -/
theorem watershed_pour_point_self_witness :
    (CHM_watershed (oneCell 0) (oneCell 3)).data 0 0 = some 3 :=
  watershed_pour_point_self (oneCell 0) (oneCell 3) 0 0 3 (by decide)

/-- Dimension/cell-size equality is transitive. -/
theorem sameDims_trans {a b c : Grid} (h1 : sameDims a b) (h2 : sameDims b c) :
    sameDims a c :=
  ⟨h1.1.trans h2.1, h1.2.1.trans h2.2.1, h1.2.2.trans h2.2.2⟩

/-- The smoothing stage preserves dimensions and cell size. -/
theorem CHM_Sm_dims (p2 : String) (g : Grid) : sameDims (CHM_Sm p2 g) g := by
  unfold CHM_Sm
  split <;> exact ⟨rfl, rfl, rfl⟩

/-- The conversion stage preserves dimensions and cell size. -/
theorem CHM_Ft_dims (p2 p3 : String) (g : Grid) : sameDims (CHM_Ft p2 p3 g) g := by
  unfold CHM_Ft
  split
  · exact sameDims_trans ⟨rfl, rfl, rfl⟩ (CHM_Sm_dims p2 g)
  · exact CHM_Sm_dims p2 g

/-- C8: every grid produced by any stage of one pipeline run has the same
dimensions and cell size as the input height grid, and the focal filter
preserves dimensions and cell size for every window size (all odd windows
included) and every nodata pattern. -/
theorem pipeline_dims_invariant (p2 p3 : String) (mh : ℚ) (g : Grid) :
    (∀ x ∈ pipelineGrids p2 p3 mh g, sameDims x g)
    ∧ (∀ (x : Grid) (wr wc : Nat) (s : FocalStat), sameDims (x.focal wr wc s) x) := by
  have h1 : sameDims (CHM_Ft p2 p3 g) g := CHM_Ft_dims p2 p3 g
  have h2 : sameDims (CHM_MinHt p2 p3 mh g) g := sameDims_trans ⟨rfl, rfl, rfl⟩ h1
  have h3 : sameDims (CHM_LocalMax (CHM_MinHt p2 p3 mh g)) g :=
    sameDims_trans ⟨rfl, rfl, rfl⟩ h2
  have h4 : sameDims (treeLoc (CHM_MinHt p2 p3 mh g)) g :=
    sameDims_trans ⟨rfl, rfl, rfl⟩ h3
  have h5 : sameDims (treeLocHt (CHM_MinHt p2 p3 mh g)) g :=
    sameDims_trans ⟨rfl, rfl, rfl⟩ h4
  have h6 : sameDims (treeTopReclass (treeLocHt (CHM_MinHt p2 p3 mh g))) g :=
    sameDims_trans ⟨rfl, rfl, rfl⟩ h5
  have h7 : sameDims
      (treeTopAlloc (treeTopReclass (treeLocHt (CHM_MinHt p2 p3 mh g))) allocationRadius) g :=
    sameDims_trans ⟨rfl, rfl, rfl⟩ h6
  have h8 : sameDims
      (treeTopDist (treeTopReclass (treeLocHt (CHM_MinHt p2 p3 mh g))) allocationRadius) g :=
    sameDims_trans ⟨rfl, rfl, rfl⟩ h6
  have h9 : sameDims (CHM_Inv (CHM_Ft p2 p3 g)) g := sameDims_trans ⟨rfl, rfl, rfl⟩ h1
  have h10 : sameDims (CHM_Flow (CHM_Inv (CHM_Ft p2 p3 g))) g :=
    sameDims_trans ⟨rfl, rfl, rfl⟩ h9
  have h11 : sameDims
      (CHM_watershed (CHM_Inv (CHM_Ft p2 p3 g))
        (treeTopReclass (treeLocHt (CHM_MinHt p2 p3 mh g)))) g :=
    sameDims_trans ⟨rfl, rfl, rfl⟩ h6
  have h12 : sameDims
      (CHM_WsEqAlloc
        (CHM_watershed (CHM_Inv (CHM_Ft p2 p3 g))
          (treeTopReclass (treeLocHt (CHM_MinHt p2 p3 mh g))))
        (treeTopAlloc (treeTopReclass (treeLocHt (CHM_MinHt p2 p3 mh g))) allocationRadius)) g :=
    sameDims_trans ⟨rfl, rfl, rfl⟩ h11
  have h13 : sameDims
      (DistGT60Hmax
        (treeTopDist (treeTopReclass (treeLocHt (CHM_MinHt p2 p3 mh g))) allocationRadius)
        (CHM_Ft p2 p3 g) g.cellsize) g :=
    sameDims_trans ⟨rfl, rfl, rfl⟩ h8
  have h14 : sameDims
      (Htmx30GTCHM (markerTable (treeLocHt (CHM_MinHt p2 p3 mh g)))
        (treeTopAlloc (treeTopReclass (treeLocHt (CHM_MinHt p2 p3 mh g))) allocationRadius)
        (CHM_Ft p2 p3 g)) g :=
    sameDims_trans ⟨rfl, rfl, rfl⟩ h7
  have h15 : sameDims
      (SegNull (markerTable (treeLocHt (CHM_MinHt p2 p3 mh g)))
        (treeTopAlloc (treeTopReclass (treeLocHt (CHM_MinHt p2 p3 mh g))) allocationRadius)
        (treeTopDist (treeTopReclass (treeLocHt (CHM_MinHt p2 p3 mh g))) allocationRadius)
        (CHM_Ft p2 p3 g) g.cellsize) g :=
    sameDims_trans ⟨rfl, rfl, rfl⟩ h13
  have h16 : sameDims
      (CanopySegRas
        (CHM_watershed (CHM_Inv (CHM_Ft p2 p3 g))
          (treeTopReclass (treeLocHt (CHM_MinHt p2 p3 mh g))))
        (treeTopAlloc (treeTopReclass (treeLocHt (CHM_MinHt p2 p3 mh g))) allocationRadius)
        (treeTopDist (treeTopReclass (treeLocHt (CHM_MinHt p2 p3 mh g))) allocationRadius)
        (CHM_Ft p2 p3 g) (markerTable (treeLocHt (CHM_MinHt p2 p3 mh g))) g.cellsize) g :=
    sameDims_trans ⟨rfl, rfl, rfl⟩ h11
  refine ⟨?_, fun x wr wc s => ⟨rfl, rfl, rfl⟩⟩
  intro x hx
  simp only [pipelineGrids, List.mem_cons, List.not_mem_nil, or_false] at hx
  rcases hx with rfl | rfl | rfl | rfl | rfl | rfl | rfl | rfl | rfl | rfl | rfl | rfl |
    rfl | rfl | rfl | rfl | rfl
  · exact CHM_Sm_dims p2 g
  · exact h1
  · exact h2
  · exact h3
  · exact h4
  · exact h5
  · exact h6
  · exact h7
  · exact h8
  · exact h9
  · exact h10
  · exact h11
  · exact h12
  · exact h13
  · exact h14
  · exact h15
  · exact h16

/-- C10: an optional step runs exactly when its parameter string,
lower-cased, equals "true"; for every other string the stage passes the
grid through unchanged, and since the stage functions are total no error is
raised. -/
theorem switch_semantics (p : String) (g : Grid) :
    (paramIsTrue p = true ↔ p.toLower = "true")
    ∧ (p.toLower ≠ "true" → CHM_Sm p g = g ∧ ∀ q, CHM_Ft q p g = CHM_Sm q g)
    ∧ (p.toLower = "true" → CHM_Sm p g = g.focal 3 3 FocalStat.mean) := by
  refine ⟨?_, ?_, ?_⟩
  · simp [paramIsTrue]
  · intro h
    have hb : paramIsTrue p = false := by
      simp [paramIsTrue]
      exact h
    exact ⟨by simp [CHM_Sm, hb], fun q => by simp [CHM_Ft, hb]⟩
  · intro h
    have hb : paramIsTrue p = true := by simp [paramIsTrue, h]
    simp [CHM_Sm, hb]

/-- C10 (witness): the string "TRUE " (note the trailing blank) does not
lower-case to "true", so the smoothing stage passes the grid through
unchanged. -/
theorem switch_semantics_witness : CHM_Sm "TRUE " (oneCell 1) = oneCell 1 :=
  ((switch_semantics "TRUE " (oneCell 1)).2.1 (by with_unfolding_all decide)).1

/-- C8 (witness): the dimension invariant instantiated at the first stage
grid of a concrete one-cell run. -/
theorem pipeline_dims_invariant_witness :
    sameDims (CHM_Sm "false" (oneCell 1)) (oneCell 1) :=
  (pipeline_dims_invariant "false" "false" 0 (oneCell 1)).1 (CHM_Sm "false" (oneCell 1))
    (List.mem_cons_self _ _)
